import Mathlib

/-!
BG3Unpack: extraction of LSPK (version 18) archives

A shallow embedding of `src/BG3Unpack.cpp`.

* A byte is a `Fin 256`; `std::string` and `std::vector<char>` are lists of bytes.
* `std::ifstream` is a record holding the bytes of the file, the read position, the
  `eofbit` and `failbit` flags and the value of `gcount()`.  `read` and `seekg` follow
  the C++11 rules for unformatted input: a `read` on a stream that is not `good()` sets
  `failbit` and extracts nothing, a short `read` sets `eofbit | failbit`, and `seekg`
  clears `eofbit` only and does nothing on a stream whose `failbit` is set.
* The three decompression libraries (LZ4, zlib, zstd) are external: each is a parameter
  of type `Codec`.
* The file system of the output side is external as well: whether directories can be
  created and files opened is a parameter (`Sink`); the output tree is an association
  list from entry names to the bytes written.
* `try`/`catch` is explicit state passing: a `throw` inside an extraction routine ends the
  routine with the state reached so far.

Integers: the 32-bit fields are natural numbers below `2 ^ 32` by construction (they are
decoded from four bytes); the only truncation in the source, the `uint32_t outputSize`
argument of `lz4Uncmp`, is written `% 2 ^ 32`; the conversions of sizes to the integer
types of the libraries belong to the library parameters.  Memory allocation is assumed to
succeed and the `int` counter `filesExtracted` is a natural number.  Standard output and
the text of the listing file are not modelled; the listing is the list of entries written
to it.

Undefined behaviour: the source reads the table past the end of its buffer when
`numFiles * 272` does not fit 32 bits, and builds a string from a null pointer when `argc`
is 0.  The model marks both (`Outcome.outOfBounds`, no exit status) and asserts nothing
about what the program does from there on.
-/

namespace BG3Unpack

/-- One `char` of a buffer, as an unsigned byte. -/
abbrev Byte := Fin 256

/-- The constant `TABLE_ENTRY_SIZE`. -/
def TABLE_ENTRY_SIZE : Nat := 272

/-- The constant `MAGIC_STRING`, the ASCII codes of `LSPK`. -/
def MAGIC_STRING : List Byte := [0x4C, 0x53, 0x50, 0x4B]

/-- The struct `FileEntry`. -/
structure FileEntry where
  name : List Byte
  offset : Nat
  compressionType : Nat
  compressedSize : Nat
  size : Nat
deriving DecidableEq

/-- A buffer of `n` zero bytes: `std::vector<char>(n, 0)`. -/
def zeros (n : Nat) : List Byte := List.replicate n 0

/-- The unsigned value of a byte sequence read as a little-endian integer. -/
def leValue : List Byte → Nat
  | [] => 0
  | b :: bs => b.val + 256 * leValue bs

/-- The `uint32_t` found at index `k` of a buffer:
`*reinterpret_cast<uint32_t*>(&buf[k])` on a little-endian machine.  The source leaves a
read past the end of the buffer undefined; here the missing bytes count as zero, and
`processFile` decodes no record that lies outside its buffer. -/
def readU32 (buf : List Byte) (k : Nat) : Nat := leValue ((buf.drop k).take 4)

/-- The C string held by a `char` array: the bytes before the first NUL.
Also `name.erase(std::find(name.begin(), name.end(), 0), name.end())`. -/
def cString (buf : List Byte) : List Byte := buf.takeWhile (fun b => b ≠ 0)

/-! ## The input stream -/

/-- The state of a `std::ifstream` opened in binary mode. -/
structure IFStream where
  content : List Byte
  pos : Nat
  eofbit : Bool
  failbit : Bool
  gcount : Nat
deriving DecidableEq

/-- A freshly opened stream. -/
def IFStream.opened (content : List Byte) : IFStream :=
  { content := content, pos := 0, eofbit := false, failbit := false, gcount := 0 }

/-- The member `good()`. -/
def IFStream.good (s : IFStream) : Bool := !s.eofbit && !s.failbit

/-- The call `read(buf, n)`: the stream afterwards and the buffer afterwards.  The bytes
extracted overwrite the front of the buffer; the rest of the buffer keeps its content. -/
def IFStream.read (s : IFStream) (buf : List Byte) (n : Nat) : IFStream × List Byte :=
  if s.good then
    let got := (s.content.drop s.pos).take n
    let short := decide (got.length < n)
    ({ s with pos := s.pos + got.length, eofbit := short, failbit := short,
              gcount := got.length },
     got ++ buf.drop got.length)
  else
    ({ s with failbit := true, gcount := 0 }, buf)

/-- The call `seekg(off)` / `seekg(off, std::ios::beg)`. -/
def IFStream.seekg (s : IFStream) (off : Int) : IFStream :=
  if s.failbit then { s with eofbit := false }
  else if off < 0 then { s with eofbit := false, failbit := true }
  else { s with eofbit := false, pos := off.toNat }

/-! ## Decoding one table record -/

/-- The body of the loop of `processFile` that fills a `FileEntry` from record `i` of the
decompressed table. -/
def decodeEntry (tableData : List Byte) (i : Nat) : FileEntry :=
  let base := i * TABLE_ENTRY_SIZE
  let name := (tableData.drop base).take 256
  let offset := readU32 tableData (base + 256)
  let compressionType := readU32 tableData (base + 260)
  let compressedSize := readU32 tableData (base + 264)
  let containsUncompressed := compressionType == 0
  let size := readU32 tableData (base + (if containsUncompressed then 264 else 268))
  { name := cString name, offset := offset, compressionType := compressionType,
    compressedSize := compressedSize, size := size }

/-- The 272-byte record `i` of a table buffer. -/
def recordAt (tableData : List Byte) (i : Nat) : List Byte :=
  (tableData.drop (i * 272)).take 272

/-- The four bytes `[k, k + 4)` of a record. -/
def field32 (record : List Byte) (k : Nat) : List Byte := (record.drop k).take 4


/-! ## The external parts: codecs and the output file system -/

/-- A decompression library call.  The arguments are the source buffer, the source size and
the capacity of the destination; the result is `none` when the library reports an error
(a negative `int` for `LZ4_decompress_safe`, a code other than `Z_OK` / `Z_STREAM_END` for
`inflateInit` / `inflate`, `ZSTD_isError` for `ZSTD_decompressDCtx`) and otherwise the
bytes the library produced, whose number is the length the library reports. -/
abbrev Codec := List Byte → Nat → Nat → Option (List Byte)

/-- The destination `std::vector<char>(cap)` after the library stored `out` at its front. -/
def fillBuffer (out : List Byte) (cap : Nat) : List Byte :=
  (out ++ zeros (cap - out.length)).take cap

/-- The three libraries. -/
structure Codecs where
  lz4 : Codec
  zlib : Codec
  zstd : Codec

/-- The answers of the output file system: whether `fs::create_directories` succeeds for
the parent of an entry name (it throws `fs::filesystem_error`, a `std::runtime_error`,
otherwise) and whether the `std::ofstream` of an entry name opens. -/
structure Sink where
  createDirectories : List Byte → Bool
  openOutput : List Byte → Bool

/-- The files under the output root: entry name and content, most recent first. -/
abbrev Files := List (List Byte × List Byte)

/-- The content of the file of that name, if there is one. -/
def Files.lookup (fs : Files) (name : List Byte) : Option (List Byte) :=
  match fs with
  | [] => none
  | (n, c) :: rest => if n = name then some c else Files.lookup rest name

/-- The tree after a `std::ofstream` on `name` was opened (which creates or truncates the
file), `content` was written to it and it was closed. -/
def Files.put (fs : Files) (name : List Byte) (content : List Byte) : Files :=
  (name, content) :: fs.filter (fun f => f.1 ≠ name)

/-- What the loop of `processFile` carries from one entry to the next: the input stream,
the output tree and the counter `filesExtracted`. -/
structure RunState where
  input : IFStream
  files : Files
  filesExtracted : Nat
deriving DecidableEq

/-! ## The decompression helpers -/

/-- The function `lz4Uncmp`: `none` stands for the `throw`. -/
def lz4Uncmp (lz4 : Codec) (input : List Byte) (inputSize outputSize : Nat) :
    Option (List Byte) :=
  match lz4 input inputSize outputSize with
  | none => none
  | some out => some (fillBuffer out outputSize)

/-- The function `zlibUncmp`: `none` stands for either `throw`. -/
def zlibUncmp (zlib : Codec) (input : List Byte) (inputSize outputSize : Nat) :
    Option (List Byte) :=
  match zlib input inputSize outputSize with
  | none => none
  | some out => some (fillBuffer out outputSize)

/-- The function `zstdUncmp`: `none` stands for the `throw`. -/
def zstdUncmp (zstd : Codec) (input : List Byte) (inputSize outputSize : Nat) :
    Option (List Byte) :=
  match zstd input inputSize outputSize with
  | none => none
  | some out => some (fillBuffer out outputSize)

/-! ## The extraction routines -/

/-- The function `extractLZ4`, called for the tags `0` and `0x42000000`. -/
def extractLZ4 (lz4 : Codec) (k : Sink) (st : RunState) (entry : FileEntry) : RunState :=
  let input := st.input.seekg entry.offset
  if !k.createDirectories entry.name then { st with input := input }
  else if !k.openOutput entry.name then { st with input := input }
  else
    let created := st.files.put entry.name []
    if entry.compressionType = 0 then
      if entry.size > 0 then
        let r := input.read (zeros entry.size) entry.size
        if r.1.gcount ≠ entry.size then
          { input := r.1, files := created, filesExtracted := st.filesExtracted }
        else
          { input := r.1, files := st.files.put entry.name (r.2.take entry.size),
            filesExtracted := st.filesExtracted + 1 }
      else
        { input := input, files := created, filesExtracted := st.filesExtracted + 1 }
    else
      let r := input.read (zeros entry.compressedSize) entry.compressedSize
      let compressedData := r.2
      if compressedData.length ≠ entry.compressedSize then
        { input := r.1, files := created, filesExtracted := st.filesExtracted }
      else
        match lz4 compressedData entry.compressedSize entry.size with
        | none => { input := r.1, files := created, filesExtracted := st.filesExtracted }
        | some out =>
          let outputBuffer := fillBuffer out entry.size
          let decompressedSize := out.length
          if decompressedSize ≠ entry.size then
            { input := r.1, files := created, filesExtracted := st.filesExtracted }
          else
            { input := r.1,
              files := st.files.put entry.name (outputBuffer.take decompressedSize),
              filesExtracted := st.filesExtracted + 1 }

/-- The function `extractZLIB`. -/
def extractZLIB (zlib : Codec) (k : Sink) (st : RunState) (entry : FileEntry) : RunState :=
  let input := st.input.seekg entry.offset
  if !k.createDirectories entry.name then { st with input := input }
  else if !k.openOutput entry.name then { st with input := input }
  else
    let created := st.files.put entry.name []
    let r := input.read (zeros entry.compressedSize) entry.compressedSize
    if r.1.gcount ≠ entry.compressedSize then
      { input := r.1, files := created, filesExtracted := st.filesExtracted }
    else
      match zlibUncmp zlib r.2 entry.compressedSize entry.size with
      | none => { input := r.1, files := created, filesExtracted := st.filesExtracted }
      | some outputBuffer =>
        { input := r.1, files := st.files.put entry.name (outputBuffer.take entry.size),
          filesExtracted := st.filesExtracted + 1 }

/-- The function `extractZSTD`. -/
def extractZSTD (zstd : Codec) (k : Sink) (st : RunState) (entry : FileEntry) : RunState :=
  let input := st.input.seekg entry.offset
  if !k.createDirectories entry.name then { st with input := input }
  else if !k.openOutput entry.name then { st with input := input }
  else
    let created := st.files.put entry.name []
    let r := input.read (zeros entry.compressedSize) entry.compressedSize
    if r.1.gcount ≠ entry.compressedSize then
      { input := r.1, files := created, filesExtracted := st.filesExtracted }
    else
      match zstdUncmp zstd r.2 entry.compressedSize entry.size with
      | none => { input := r.1, files := created, filesExtracted := st.filesExtracted }
      | some outputBuffer =>
        { input := r.1, files := st.files.put entry.name (outputBuffer.take entry.size),
          filesExtracted := st.filesExtracted + 1 }

/-- The dispatch on the compression type at the end of the loop body of `processFile`. -/
def processEntry (c : Codecs) (k : Sink) (st : RunState) (entry : FileEntry) : RunState :=
  if entry.compressionType = 0x0 then extractLZ4 c.lz4 k st entry
  else if entry.compressionType = 0x21000000 then extractZLIB c.zlib k st entry
  else if entry.compressionType = 0x42000000 then extractLZ4 c.lz4 k st entry
  else if entry.compressionType = 0x23000000 then extractZSTD c.zstd k st entry
  else st

/-- The loop of `processFile` over the decoded entries, in table order. -/
def processEntries (c : Codecs) (k : Sink) (st : RunState) : List FileEntry → RunState
  | [] => st
  | entry :: rest => processEntries c k (processEntry c k st entry) rest

/-! ## The driver -/

/-- The `throw` statements of `processFile` outside the extraction routines, in source
order, with the `fs::filesystem_error` of `fs::create_directory`. -/
inductive Fatal where
  | cannotOpenInput
  | invalidMagic
  | badVersion
  | tableDecompression
  | createDirectory
  | cannotOpenFileList
deriving DecidableEq

/-- Everything `processFile` depends on besides its arguments: the bytes of the input file
(`none` when it cannot be opened), whether `fs::create_directory` of the output root
succeeds, whether the listing file opens, the entry sink, the libraries, and the files
under the output root before the run. -/
structure World where
  inputFile : Option (List Byte)
  createRoot : Bool
  openFileList : Bool
  sink : Sink
  codecs : Codecs
  files : Files

/-- What a run of `processFile` leaves behind.  `numFiles` is the entry count read from the
table header when the loop over the entries was reached, and 0 otherwise.  `outOfBounds`
is set when the loop has to read a record that lies outside the table buffer: from there on
the source's behaviour is undefined, and the other fields describe the run up to that
point. -/
structure Outcome where
  fatal : Option Fatal
  directoryCreated : Bool
  fileListOpened : Bool
  listing : List FileEntry
  files : Files
  filesExtracted : Nat
  numFiles : Nat
  outOfBounds : Bool
deriving DecidableEq

/-- The run that ends in the `catch` of `processFile` before the output root is made. -/
def World.aborted (w : World) (e : Fatal) : Outcome :=
  { fatal := some e, directoryCreated := false, fileListOpened := false, listing := [],
    files := w.files, filesExtracted := 0, numFiles := 0, outOfBounds := false }

/-- The conversion of the `uint64_t tableOffset` to the signed stream offset. -/
def toStreamoff (n : Nat) : Int := if n < 2 ^ 63 then (n : Int) else (n : Int) - 2 ^ 64

/-- The function `processFile`.  The loop reads record `i` at index `i * 272` of the buffer
`lz4Uncmp` returned, which has `(numFiles * 272) % 2 ^ 32` bytes: the records from index
`tableData.size() / 272` on lie outside the buffer.  The loop of the model runs over the
records inside the buffer and `outOfBounds` tells whether one lies outside. -/
def processFile (w : World) : Outcome :=
  match w.inputFile with
  | none => w.aborted Fatal.cannotOpenInput
  | some content =>
    let input := IFStream.opened content
    let rid := input.read (zeros 5) 4
    if cString rid.2 ≠ MAGIC_STRING then w.aborted Fatal.invalidMagic
    else
      let rv := rid.1.read (zeros 4) 4
      let version := leValue rv.2
      if version ≠ 18 then w.aborted Fatal.badVersion
      else
        let rt := rv.1.read (zeros 8) 8
        let tableOffset := leValue rt.2
        let input := rt.1.seekg (toStreamoff tableOffset)
        let rn := input.read (zeros 4) 4
        let numFiles := leValue rn.2
        let rc := rn.1.read (zeros 4) 4
        let tableCompressedSize := leValue rc.2
        let rb := rc.1.read (zeros tableCompressedSize) tableCompressedSize
        match lz4Uncmp w.codecs.lz4 rb.2 tableCompressedSize
            ((numFiles * TABLE_ENTRY_SIZE) % 2 ^ 32) with
        | none => w.aborted Fatal.tableDecompression
        | some tableData =>
          if !w.createRoot then w.aborted Fatal.createDirectory
          else if !w.openFileList then
            { w.aborted Fatal.cannotOpenFileList with directoryCreated := true }
          else
            let inside := min numFiles (tableData.length / TABLE_ENTRY_SIZE)
            let entries := (List.range inside).map (decodeEntry tableData)
            let st := processEntries w.codecs w.sink
              { input := rb.1, files := w.files, filesExtracted := 0 } entries
            { fatal := none, directoryCreated := true, fileListOpened := true,
              listing := entries, files := st.files, filesExtracted := st.filesExtracted,
              numFiles := numFiles, outOfBounds := decide (inside < numFiles) }

/-- What `main` depends on: the function `fs::path::extension` and, for each input file
name, the world `processFile` runs in. -/
structure Host where
  extension : List Char → List Char
  world : List Char → World

/-- The input file name `main` builds from `argv[1]`, ..., joined by single spaces. -/
def joinArguments : List (List Char) → List Char
  | [] => []
  | [a] => a
  | a :: b :: rest => a ++ ' ' :: joinArguments (b :: rest)

/-- The value `EXIT_SUCCESS`. -/
def EXIT_SUCCESS : Nat := 0

/-- The value `EXIT_FAILURE`. -/
def EXIT_FAILURE : Nat := 1

/-- The exit status of `main` and the run of `processFile`, when it was called.  The status
is `none` where the source's behaviour is undefined. -/
structure MainResult where
  exitCode : Option Nat
  run : Option Outcome
deriving DecidableEq

/-- The function `main`; `argv` is the whole argument vector and `argc` its length.  With
`argc = 0` the usage message is built from the null pointer `argv[0]`, and a run of
`processFile` that reads outside the table buffer does not return in a defined way: in both
cases there is no status. -/
def main (h : Host) (argv : List (List Char)) : MainResult :=
  if argv.length < 2 then
    if argv.length = 0 then { exitCode := none, run := none }
    else { exitCode := some EXIT_FAILURE, run := none }
  else
    let inputFilename := joinArguments argv.tail
    let extension := h.extension inputFilename
    if extension ≠ ['.', 'p', 'a', 'k'] ∧ extension ≠ ['.', 'l', 's', 'v'] then
      { exitCode := some EXIT_FAILURE, run := none }
    else
      let run := processFile (h.world inputFilename)
      { exitCode := if run.outOfBounds then none else some EXIT_SUCCESS, run := some run }

/-! ## Sample libraries and worlds for concrete runs -/

/-- The extension bytes of an LZ4 literal length: bytes are added up to and including the
first one below 255. -/
def lz4Extra : List Byte → Option (Nat × List Byte)
  | [] => none
  | b :: rest =>
    if b.val = 255 then (lz4Extra rest).map (fun r => (255 + r.1, r.2))
    else some (b.val, rest)

/-- A sample LZ4 library, defined on the blocks made of a single sequence of literals (a
token whose low nibble is zero, the literal length, the literals, end of block), on which
it returns what `LZ4_decompress_safe` returns; every other block is an error. -/
def sampleLZ4 : Codec := fun src srcSize cap =>
  match src.take srcSize with
  | [] => none
  | token :: rest =>
    if token.val % 16 ≠ 0 then none
    else
      let run := if token.val / 16 = 15 then (lz4Extra rest).map (fun r => (15 + r.1, r.2))
                 else some (token.val / 16, rest)
      match run with
      | none => none
      | some (len, literals) =>
        if literals.length = len ∧ len ≤ cap then some literals else none

/-- The zlib stream of the one-byte text `A`. -/
def zlibStreamA : List Byte := [0x78, 0x9C, 0x73, 0x04, 0x00, 0x00, 0x42, 0x00, 0x42]

/-- A sample zlib library: it inflates `zlibStreamA` to the byte `A` when the destination
has room for it; everything else is an error. -/
def sampleZlib : Codec := fun src srcSize cap =>
  if src.take srcSize = zlibStreamA ∧ 1 ≤ cap then some [0x41] else none

/-- The zstd frame with a single raw block holding the one-byte text `A`. -/
def zstdFrameA : List Byte := [0x28, 0xB5, 0x2F, 0xFD, 0x20, 0x01, 0x09, 0x00, 0x00, 0x41]

/-- A sample zstd library: it decodes `zstdFrameA` to the byte `A` when the destination
has room for it; everything else is an error. -/
def sampleZstd : Codec := fun src srcSize cap =>
  if src.take srcSize = zstdFrameA ∧ 1 ≤ cap then some [0x41] else none

/-- The three sample libraries. -/
def sampleCodecs : Codecs := { lz4 := sampleLZ4, zlib := sampleZlib, zstd := sampleZstd }

/-- A sink that creates every directory and opens every file with a non-empty name. -/
def sampleSink : Sink :=
  { createDirectories := fun _ => true, openOutput := fun name => !name.isEmpty }

/-- A world around the given archive bytes: empty output root, sample sink and libraries. -/
def sampleWorld (archive : List Byte) : World :=
  { inputFile := some archive, createRoot := true, openFileList := true,
    sink := sampleSink, codecs := sampleCodecs, files := [] }

/-- The four bytes of a 32-bit value, little-endian. -/
def le32 (n : Nat) : List Byte :=
  [Fin.ofNat n, Fin.ofNat (n / 256), Fin.ofNat (n / 65536), Fin.ofNat (n / 16777216)]

/-- A 272-byte table record with the given name and the four 32-bit slots. -/
def mkRecord (name : List Byte) (offset tag slot264 slot268 : Nat) : List Byte :=
  name ++ zeros (256 - name.length) ++ le32 offset ++ le32 tag ++ le32 slot264 ++ le32 slot268

/-- The LZ4 block that stores `literals` (at least 15 of them) as a single run of
literals. -/
def storedBlock (literals : List Byte) : List Byte :=
  0xF0 :: (List.replicate ((literals.length - 15) / 255) 0xFF
    ++ Fin.ofNat ((literals.length - 15) % 255) :: literals)

/-- An archive: the 16-byte header with the table at offset 16, the table header, the
table block and then the payload area. -/
def mkArchive (numFiles : Nat) (tableBlock : List Byte) (payload : List Byte) : List Byte :=
  MAGIC_STRING ++ le32 18 ++ le32 16 ++ le32 0 ++ le32 numFiles ++ le32 tableBlock.length
    ++ tableBlock ++ payload

/-- A payload area holding, in this order: five raw bytes, `zlibStreamA`, the LZ4 block of
the one-byte text `A`, and `zstdFrameA`. -/
def samplePayload : List Byte := [1, 2, 3, 4, 5] ++ zlibStreamA ++ [0x10, 0x41] ++ zstdFrameA

/-- The state at the start of the entry loop for a file with the given bytes. -/
def startState (content : List Byte) : RunState :=
  { input := IFStream.opened content, files := [], filesExtracted := 0 }

/-- Sample entries over `samplePayload`, one per recognized tag, and one with a tag that is
not recognized. -/
def rawEntry : FileEntry :=
  { name := [0x72], offset := 0, compressionType := 0, compressedSize := 5, size := 5 }

/-- The zlib entry over `samplePayload`. -/
def zlibEntry : FileEntry :=
  { name := [0x7A], offset := 5, compressionType := 0x21000000, compressedSize := 9, size := 1 }

/-- The LZ4 entry over `samplePayload`. -/
def lz4Entry : FileEntry :=
  { name := [0x6C], offset := 14, compressionType := 0x42000000, compressedSize := 2,
    size := 1 }

/-- The zstd entry over `samplePayload`. -/
def zstdEntry : FileEntry :=
  { name := [0x73], offset := 16, compressionType := 0x23000000, compressedSize := 10,
    size := 1 }

/-- An entry over `samplePayload` whose tag is none of the four. -/
def unknownEntry : FileEntry :=
  { name := [0x75], offset := 0, compressionType := 0x00000001, compressedSize := 5,
    size := 5 }

/-- The file-name part of a path in the generic format: what follows the last `/`. -/
def pathFilename (path : List Char) : List Char :=
  (path.reverse.takeWhile (fun ch => ch ≠ '/')).reverse

/-- A sample `fs::path::extension`, for paths in the generic format: the part of the file
name from its last period on, unless the file name is `.` or `..`, has no period, or has its
only period in front. -/
def sampleExtension (path : List Char) : List Char :=
  let name := pathFilename path
  let tail := (name.reverse.takeWhile (fun ch => ch ≠ '.')).reverse
  if name = ['.'] ∨ name = ['.', '.'] then []
  else if tail.length = name.length then []
  else if tail.length + 1 = name.length then []
  else '.' :: tail

/-- A host with the sample extension function in which every input file name leads to the
sample world around `archive` (`none`: the file cannot be opened). -/
def sampleHost (archive : Option (List Byte)) : Host :=
  { extension := sampleExtension,
    world := fun _ => { inputFile := archive, createRoot := true, openFileList := true,
                        sink := sampleSink, codecs := sampleCodecs, files := [] } }

/-- The argument vector `prog x.pak`. -/
def sampleArgv : List (List Char) := [['p', 'r', 'o', 'g'], ['x', '.', 'p', 'a', 'k']]

/-- An archive whose table header announces two entries and whose LZ4 table block decodes
to one record only: the entry `a`, type 0, five bytes at offset 299. -/
def shortTableArchive : List Byte :=
  mkArchive 2 (storedBlock (mkRecord [0x61] 299 0 5 0)) [1, 2, 3, 4, 5]

/-- The entries of `samplePayload` with a declared size of four bytes where the stored
stream holds one. -/
def zlibEntryLong : FileEntry := { zlibEntry with size := 4 }

/-- The zstd entry with a declared size of four bytes. -/
def zstdEntryLong : FileEntry := { zstdEntry with size := 4 }

/-- The LZ4 entry with a declared size of four bytes. -/
def lz4EntryLong : FileEntry := { lz4Entry with size := 4 }

/-- An archive with one zlib entry `z` of declared size 4 whose stream inflates to the one
byte `A`. -/
def longZlibArchive : List Byte :=
  mkArchive 1 (storedBlock (mkRecord [0x7A] 299 0x21000000 9 4)) zlibStreamA

/-- An archive with one LZ4 entry `l` of compressed size 2 and size 1 whose payload starts
at the last byte of the file, the token `0x10`. -/
def truncatedLZ4Archive : List Byte :=
  mkArchive 1 (storedBlock (mkRecord [0x6C] 299 0x42000000 2 1)) [0x10]

/-- The same with a zlib entry `z` of compressed size 9 whose payload is cut after the
first byte. -/
def truncatedZlibArchive : List Byte :=
  mkArchive 1 (storedBlock (mkRecord [0x7A] 299 0x21000000 9 1)) [0x78]

/-- An archive with two entries of type 0 at offset 572, where the last five bytes of the
file start: `b` declares nine bytes, `r` declares five. -/
def twoEntryArchive : List Byte :=
  mkArchive 2 (storedBlock (mkRecord [0x62] 572 0 9 0 ++ mkRecord [0x72] 572 0 5 0))
    [1, 2, 3, 4, 5]

/-- The archive with the entry `r` alone, its five bytes at offset 299. -/
def oneEntryArchive : List Byte :=
  mkArchive 1 (storedBlock (mkRecord [0x72] 299 0 5 0)) [1, 2, 3, 4, 5]

/-- An entry of type 0 over `samplePayload` that declares nine bytes where three are
left. -/
def overlongEntry : FileEntry :=
  { name := [0x62], offset := 23, compressionType := 0, compressedSize := 9, size := 9 }

/-- An archive of 26 bytes whose table header announces 15790321 entries, so that
`numFiles * 272` is `2 ^ 32 + 16`, and whose table block decodes without error. -/
def hugeCountArchive : List Byte := mkArchive 15790321 [0x10, 0x41] []

/-- An entry of type 0 and size 0. -/
def emptyEntry : FileEntry :=
  { name := [0x65], offset := 0, compressionType := 0, compressedSize := 0, size := 0 }

/-! ## Statements of the specification -/

/-- The header condition in the words of the specification: the first four bytes are
`LSPK` and the archive holds, at offset 4, a little-endian 32-bit value equal to 18. -/
def validHeader (archive : List Byte) : Prop :=
  archive.take 4 = MAGIC_STRING ∧
    ((archive.drop 4).take 4).length = 4 ∧ leValue ((archive.drop 4).take 4) = 18

/-- The header condition `processFile` tests: the first four bytes are `LSPK` and the bytes
the archive holds at offsets 4 to 7, up to four of them, read as little-endian value 18. -/
def acceptedHeader (archive : List Byte) : Prop :=
  archive.take 4 = MAGIC_STRING ∧ leValue ((archive.drop 4).take 4) = 18

/-- The run went past the magic and version checks. -/
def Outcome.passedHeader (o : Outcome) : Prop :=
  o.fatal ≠ some Fatal.cannotOpenInput ∧ o.fatal ≠ some Fatal.invalidMagic ∧
    o.fatal ≠ some Fatal.badVersion

/-- The run ended in a fatal error with nothing done on the output side. -/
def Outcome.abortedEarly (w : World) (o : Outcome) : Prop :=
  o.fatal.isSome = true ∧ o.directoryCreated = false ∧ o.fileListOpened = false ∧
    o.listing = [] ∧ o.files = w.files ∧ o.filesExtracted = 0

/-- The bytes `[off, off + n)` of a file. -/
def slice (content : List Byte) (off n : Nat) : List Byte := (content.drop off).take n

/-- The entry's file holds exactly `content` after the step from `st` to `st1`, and the
entry was counted as extracted. -/
def writtenAndCounted (st st1 : RunState) (name content : List Byte) : Prop :=
  st1.files = st.files.put name content ∧ st1.files.lookup name = some content ∧
    st1.filesExtracted = st.filesExtracted + 1

theorem cString_initial (buf : List Byte) : cString buf <+: buf :=
  List.takeWhile_prefix _

theorem zero_not_mem_cString (buf : List Byte) : (0 : Byte) ∉ cString buf := by
  intro h
  have := List.mem_takeWhile_imp h
  simp at this

theorem cString_eq_self (buf : List Byte) (h : (0 : Byte) ∉ buf) : cString buf = buf := by
  unfold cString
  rw [List.takeWhile_eq_self_iff]
  intro b hb
  simp only [ne_eq, decide_eq_true_eq]
  rintro rfl
  exact h hb

theorem cString_next (buf : List Byte) (h : (cString buf).length < buf.length) :
    buf[(cString buf).length]? = some 0 := by
  induction buf with
  | nil => simp at h
  | cons b bs ih =>
    by_cases hb : b = 0
    · subst hb; simp [cString]
    · have hc : cString (b :: bs) = b :: cString bs := by simp [cString, hb]
      rw [hc] at h ⊢
      simp only [List.length_cons, List.getElem?_cons_succ] at h ⊢
      exact ih (by omega)

theorem readU32_record (tableData : List Byte) (i k : Nat) (hk : k + 4 ≤ 272) :
    readU32 tableData (i * TABLE_ENTRY_SIZE + k) = leValue (field32 (recordAt tableData i) k) := by
  unfold readU32 field32 recordAt TABLE_ENTRY_SIZE
  congr 1
  rw [List.drop_take, List.take_take, List.drop_drop, Nat.min_eq_left (by omega)]

theorem leValue_lt (bs : List Byte) : leValue bs < 256 ^ bs.length := by
  induction bs with
  | nil => simp [leValue]
  | cons b bs ih =>
    have := b.isLt
    simp only [leValue, List.length_cons, pow_succ]
    omega

/-- A value decoded from four bytes fits 32 bits. -/
theorem readU32_lt (buf : List Byte) (k : Nat) : readU32 buf k < 2 ^ 32 := by
  have h := leValue_lt ((buf.drop k).take 4)
  have hl : ((buf.drop k).take 4).length ≤ 4 := by simp
  have hp : 256 ^ ((buf.drop k).take 4).length ≤ 256 ^ 4 :=
    Nat.pow_le_pow_right (by decide) hl
  unfold readU32
  have : (256 : Nat) ^ 4 = 2 ^ 32 := by norm_num
  omega

theorem leValue_zeros (n : Nat) : leValue (zeros n) = 0 := by
  induction n with
  | zero => rfl
  | succ n ih =>
    show leValue (0 :: zeros n) = 0
    rw [leValue, ih]
    rfl

theorem leValue_append_zeros (bs : List Byte) (n : Nat) :
    leValue (bs ++ zeros n) = leValue bs := by
  induction bs with
  | nil => exact leValue_zeros n
  | cons b bs ih =>
    show leValue (b :: (bs ++ zeros n)) = leValue (b :: bs)
    rw [leValue, leValue, ih]

theorem cString_append_zeros (bs : List Byte) (n : Nat) (hn : 0 < n) :
    cString (bs ++ zeros n) = cString bs := by
  induction bs with
  | nil =>
    obtain ⟨m, rfl⟩ : ∃ m, n = m + 1 := ⟨n - 1, by omega⟩
    have : zeros (m + 1) = 0 :: zeros m := rfl
    simp [cString, this]
  | cons b bs ih =>
    by_cases hb : b = 0
    · subst hb; simp [cString]
    · simp only [cString, List.cons_append, List.takeWhile_cons, ne_eq, hb, not_false_eq_true,
        decide_True, ite_true, List.cons.injEq, true_and]
      exact ih

theorem zeros_drop (n k : Nat) : (zeros n).drop k = zeros (n - k) := by
  simp [zeros]

theorem zeros_length (n : Nat) : (zeros n).length = n := by simp [zeros]

/-- The buffer a `read` returns has the length of the buffer it was given. -/
theorem read_buffer_length (s : IFStream) (n : Nat) :
    (s.read (zeros n) n).2.length = n := by
  unfold IFStream.read
  split
  · simp only [List.length_append, List.length_take, List.length_drop, zeros_length]
    omega
  · exact zeros_length n

/-- A `read` of `n` bytes on a good stream that holds them: the bytes are returned, the
stream stays good and `gcount()` is `n`. -/
theorem read_of_good (s : IFStream) (n : Nat) (m : Nat) (hg : s.good = true)
    (hn : s.pos + n ≤ s.content.length) :
    s.read (zeros m) n =
      ({ s with pos := s.pos + n, eofbit := false, failbit := false, gcount := n },
       (s.content.drop s.pos).take n ++ zeros (m - n)) := by
  have hlen : ((s.content.drop s.pos).take n).length = n := by
    simp only [List.length_take, List.length_drop]; omega
  unfold IFStream.read
  simp only [hg, if_true, hlen, zeros_drop, lt_self_iff_false, decide_False]

/-- The bytes a `read` on a good stream extracts, in general. -/
theorem read_on_good (s : IFStream) (n : Nat) (m : Nat) (hg : s.good = true) :
    (s.read (zeros m) n).2 =
      (s.content.drop s.pos).take n ++ zeros (m - ((s.content.drop s.pos).take n).length) := by
  unfold IFStream.read
  simp only [hg, if_true, zeros_drop]


/-! ## C1: the layout of a table record -/

/-- C1. For a table buffer of `numFiles * 272` bytes and `i < numFiles`, the entry decoded
from record `i` has: as name the longest NUL-free initial segment of bytes `[0,256)` of the
record (all 256 bytes when none is NUL), at most 256 bytes long; as offset the
little-endian value of bytes `[256,260)`; as compression type that of bytes `[260,264)`;
as size that of bytes `[264,268)` when the compression type is 0 and that of bytes
`[268,272)` otherwise; and, when the compression type is not 0, as compressed size that of
bytes `[264,268)`. -/
theorem decodeEntry_layout (tableData : List Byte) (numFiles i : Nat)
    (hlen : tableData.length = numFiles * 272) (hi : i < numFiles) :
    (recordAt tableData i).length = 272 ∧
    (decodeEntry tableData i).name <+: (recordAt tableData i).take 256 ∧
    (0 : Byte) ∉ (decodeEntry tableData i).name ∧
    (decodeEntry tableData i).name.length ≤ 256 ∧
    ((decodeEntry tableData i).name.length < 256 →
      (recordAt tableData i)[(decodeEntry tableData i).name.length]? = some 0) ∧
    ((0 : Byte) ∉ (recordAt tableData i).take 256 →
      (decodeEntry tableData i).name = (recordAt tableData i).take 256) ∧
    (decodeEntry tableData i).offset = leValue (field32 (recordAt tableData i) 256) ∧
    (decodeEntry tableData i).compressionType = leValue (field32 (recordAt tableData i) 260) ∧
    ((decodeEntry tableData i).compressionType = 0 →
      (decodeEntry tableData i).size = leValue (field32 (recordAt tableData i) 264)) ∧
    ((decodeEntry tableData i).compressionType ≠ 0 →
      (decodeEntry tableData i).size = leValue (field32 (recordAt tableData i) 268) ∧
      (decodeEntry tableData i).compressedSize =
        leValue (field32 (recordAt tableData i) 264)) := by
  have hrec : (recordAt tableData i).length = 272 := by
    have : (i + 1) * 272 ≤ numFiles * 272 := Nat.mul_le_mul_right 272 hi
    simp only [recordAt, List.length_take, List.length_drop, hlen]
    omega
  have hname : (decodeEntry tableData i).name = cString ((recordAt tableData i).take 256) := by
    simp only [decodeEntry, recordAt, TABLE_ENTRY_SIZE, List.take_take]
    rfl
  have hlen256 : ((recordAt tableData i).take 256).length = 256 := by
    simp only [List.length_take, hrec]; rfl
  have hoff : (decodeEntry tableData i).offset = leValue (field32 (recordAt tableData i) 256) :=
    readU32_record tableData i 256 (by omega)
  have htag : (decodeEntry tableData i).compressionType =
      leValue (field32 (recordAt tableData i) 260) :=
    readU32_record tableData i 260 (by omega)
  have hcs : (decodeEntry tableData i).compressedSize =
      leValue (field32 (recordAt tableData i) 264) :=
    readU32_record tableData i 264 (by omega)
  have hle : (decodeEntry tableData i).name.length ≤ 256 := by
    rw [hname]
    have := (cString_initial ((recordAt tableData i).take 256)).length_le
    omega
  refine ⟨hrec, ?_, ?_, hle, ?_, ?_, hoff, htag, ?_, ?_⟩
  · rw [hname]; exact cString_initial _
  · rw [hname]; exact zero_not_mem_cString _
  · intro hlt
    rw [hname] at hlt ⊢
    have h := cString_next ((recordAt tableData i).take 256) (by omega)
    rw [List.getElem?_take_of_lt (by omega)] at h
    exact h
  · intro h0
    rw [hname]; exact cString_eq_self _ h0
  · intro h0
    have h0p : readU32 tableData (i * TABLE_ENTRY_SIZE + 260) = 0 := h0
    have : (decodeEntry tableData i).size = readU32 tableData (i * TABLE_ENTRY_SIZE + 264) := by
      simp only [decodeEntry, h0p, beq_self_eq_true, if_true]
    rw [this]
    exact readU32_record tableData i 264 (by omega)
  · intro h0
    have h0p : readU32 tableData (i * TABLE_ENTRY_SIZE + 260) ≠ 0 := h0
    have : (decodeEntry tableData i).size = readU32 tableData (i * TABLE_ENTRY_SIZE + 268) := by
      simp only [decodeEntry, beq_iff_eq, h0p, if_false]
    rw [this]
    exact ⟨readU32_record tableData i 268 (by omega), hcs⟩

/-- A run of C1 on the one-record table of the entry `a` (compression type `0x42000000`,
compressed size 7, size 5, offset 299). -/
theorem decodeEntry_layout_witness :
    (mkRecord [0x61] 299 0x42000000 7 5).length = 1 * 272 ∧ 0 < 1 ∧
    decodeEntry (mkRecord [0x61] 299 0x42000000 7 5) 0 =
      { name := [0x61], offset := 299, compressionType := 0x42000000,
        compressedSize := 7, size := 5 } ∧
    (decodeEntry (mkRecord [0x61] 299 0x42000000 7 5) 0).offset =
      leValue (field32 (recordAt (mkRecord [0x61] 299 0x42000000 7 5) 0) 256) :=
  ⟨by set_option maxRecDepth 100000 in decide, by set_option maxRecDepth 100000 in decide, by set_option maxRecDepth 100000 in decide,
   (decodeEntry_layout (mkRecord [0x61] 299 0x42000000 7 5) 1 0 (by set_option maxRecDepth 100000 in decide) (by set_option maxRecDepth 100000 in decide)).2.2.2.2.2.2.1⟩


/-! ## C2: the header checks -/

theorem opened_good (content : List Byte) : (IFStream.opened content).good = true := rfl

/-- The magic test of `processFile` succeeds exactly when the file starts with `LSPK`. -/
theorem magic_check (content : List Byte) :
    cString ((IFStream.opened content).read (zeros 5) 4).2 = MAGIC_STRING ↔
      content.take 4 = MAGIC_STRING := by
  rw [read_on_good _ _ _ (opened_good content)]
  have hl : (content.take 4).length ≤ 4 := by simp
  have hpos : (IFStream.opened content).pos = 0 := rfl
  have hc : (IFStream.opened content).content = content := rfl
  rw [hpos, hc, List.drop_zero, cString_append_zeros _ _ (by omega)]
  constructor
  · intro h
    have hp := cString_initial (content.take 4)
    rw [h] at hp
    have hlen : MAGIC_STRING.length = 4 := rfl
    exact (List.IsPrefix.eq_of_length_le hp (by omega)).symm
  · intro h
    rw [h]
    set_option maxRecDepth 100000 in decide

/-- After a successful magic test the version variable holds the little-endian value of the
bytes the file has at offsets 4 to 7. -/
theorem version_read (content : List Byte) (hm : content.take 4 = MAGIC_STRING) :
    leValue (((IFStream.opened content).read (zeros 5) 4).1.read (zeros 4) 4).2 =
      leValue ((content.drop 4).take 4) := by
  have h4 : 4 ≤ content.length := by
    have : (content.take 4).length = 4 := by rw [hm]; rfl
    simp only [List.length_take] at this
    omega
  rw [read_of_good _ 4 5 (opened_good content) (by simpa [IFStream.opened] using h4)]
  rw [read_on_good _ _ _ (by rfl), leValue_append_zeros]
  rfl

/-- C2 (amended). When the input file opens, `processFile` goes past the magic and version
checks exactly when the first four bytes are `LSPK` and the bytes the file holds at offsets
4 to 7 (fewer than four when the file ends before offset 8) read, little-endian, as 18; in
every other case it ends in a fatal error with the output root not created, the listing not
opened and no entry listed or extracted.  For a file of at least 8 bytes the condition is
that the 32-bit value at offset 4 is 18. -/
theorem header_gate (w : World) (archive : List Byte) (h : w.inputFile = some archive) :
    ((processFile w).passedHeader ↔ acceptedHeader archive) ∧
    (¬ acceptedHeader archive → (processFile w).abortedEarly w) ∧
    (8 ≤ archive.length → (acceptedHeader archive ↔ validHeader archive)) := by
  refine ⟨?_, ?_, ?_⟩
  · by_cases hm : archive.take 4 = MAGIC_STRING
    · by_cases hv : leValue ((archive.drop 4).take 4) = 18
      · have hacc : acceptedHeader archive := ⟨hm, hv⟩
        simp only [hacc, iff_true]
        unfold processFile
        simp only [h, magic_check, hm, version_read archive hm, hv, ne_eq, not_true_eq_false,
          if_false]
        split
        · simp [Outcome.passedHeader, World.aborted]
        · split
          · simp [Outcome.passedHeader, World.aborted]
          · split <;> simp [Outcome.passedHeader, World.aborted]
      · have hacc : ¬ acceptedHeader archive := fun hh => hv hh.2
        simp only [hacc, iff_false]
        unfold processFile
        simp only [h, magic_check, hm, version_read archive hm, hv, ne_eq, not_true_eq_false,
          not_false_eq_true, if_false, if_true]
        simp [Outcome.passedHeader, World.aborted]
    · have hacc : ¬ acceptedHeader archive := fun hh => hm hh.1
      simp only [hacc, iff_false]
      unfold processFile
      simp only [h, magic_check, hm, ne_eq, not_false_eq_true, if_true]
      simp [Outcome.passedHeader, World.aborted]
  · intro hacc
    by_cases hm : archive.take 4 = MAGIC_STRING
    · have hv : ¬ leValue ((archive.drop 4).take 4) = 18 := fun hv => hacc ⟨hm, hv⟩
      unfold processFile
      simp only [h, magic_check, hm, version_read archive hm, hv, ne_eq, not_true_eq_false,
        not_false_eq_true, if_false, if_true]
      simp [Outcome.abortedEarly, World.aborted]
    · unfold processFile
      simp only [h, magic_check, hm, ne_eq, not_false_eq_true, if_true]
      simp [Outcome.abortedEarly, World.aborted]
  · intro h8
    have hl : ((archive.drop 4).take 4).length = 4 := by
      simp only [List.length_take, List.length_drop]; omega
    simp only [acceptedHeader, validHeader, hl, true_and]

/-- A run of C2 on the archives `LSPK` + version 18 + eight more bytes (accepted) and
`XXXX...` (rejected before anything is done on the output side). -/
theorem header_gate_witness :
    ((processFile (sampleWorld (mkArchive 0 [0] []))).passedHeader ↔
        acceptedHeader (mkArchive 0 [0] [])) ∧
    acceptedHeader (mkArchive 0 [0] []) ∧
    (processFile (sampleWorld (0x58 :: 0x58 :: 0x58 :: 0x58 :: le32 18))).abortedEarly
      (sampleWorld (0x58 :: 0x58 :: 0x58 :: 0x58 :: le32 18)) :=
  ⟨(header_gate (sampleWorld (mkArchive 0 [0] [])) (mkArchive 0 [0] []) rfl).1,
   ⟨by set_option maxRecDepth 100000 in decide, by set_option maxRecDepth 100000 in decide⟩,
   (header_gate (sampleWorld (0x58 :: 0x58 :: 0x58 :: 0x58 :: le32 18))
      (0x58 :: 0x58 :: 0x58 :: 0x58 :: le32 18) rfl).2.1 (by
        intro hacc
        exact absurd hacc.1 (by set_option maxRecDepth 100000 in decide))⟩

/-- C2 as stated fails: the five-byte file `LSPK` followed by the byte 18 has no 32-bit
value at offset 4, yet the version variable, zero before the read and filled with the one
byte the file holds, equals 18 and `processFile` goes past both header checks (the run then
ends when the table fails to decompress). -/
theorem header_gate_short_file :
    ¬ validHeader [0x4C, 0x53, 0x50, 0x4B, 18] ∧
    (processFile (sampleWorld [0x4C, 0x53, 0x50, 0x4B, 18])).passedHeader ∧
    (processFile (sampleWorld [0x4C, 0x53, 0x50, 0x4B, 18])).fatal =
      some Fatal.tableDecompression := by
  refine ⟨?_, ?_, ?_⟩
  · intro hv
    exact absurd hv.2.1 (by set_option maxRecDepth 100000 in decide)
  · have hf : (processFile (sampleWorld [0x4C, 0x53, 0x50, 0x4B, 18])).fatal =
        some Fatal.tableDecompression := by set_option maxRecDepth 100000 in decide
    simp [Outcome.passedHeader, hf]
  · set_option maxRecDepth 100000 in decide


/-! ## C3: round trip of the extraction -/

theorem lookup_put (fs : Files) (name content : List Byte) :
    (fs.put name content).lookup name = some content := by
  simp [Files.put, Files.lookup]

theorem lookup_filter_ne (fs : Files) (name other : List Byte) (h : other ≠ name) :
    Files.lookup (fs.filter (fun f => f.1 ≠ name)) other = Files.lookup fs other := by
  induction fs with
  | nil => rfl
  | cons f rest ih =>
    obtain ⟨n, c⟩ := f
    by_cases hn : n = name
    · have ho : ¬ n = other := fun hh => h (hh.symm.trans hn)
      simp only [List.filter_cons, hn, ne_eq, not_true_eq_false, decide_False,
        Bool.false_eq_true, if_false, Files.lookup]
      rw [← hn] at ih ⊢
      simp only [ho, if_false]
      exact ih
    · simp only [List.filter_cons, hn, ne_eq, not_false_eq_true, decide_True, if_true,
        Files.lookup]
      rw [ih]

theorem lookup_put_of_ne (fs : Files) (name other content : List Byte) (h : other ≠ name) :
    (fs.put name content).lookup other = fs.lookup other := by
  have hne : ¬ name = other := fun hh => h hh.symm
  simp only [Files.put, Files.lookup, hne, if_false]
  exact lookup_filter_ne fs name other h

theorem fillBuffer_full (out : List Byte) (cap : Nat) (h : out.length = cap) :
    fillBuffer out cap = out := by
  simp [fillBuffer, h, zeros]

/-- On a good stream `seekg` to a non-negative offset moves the position and nothing else. -/
theorem seekg_of_good (s : IFStream) (off : Nat) (hg : s.good = true) :
    s.seekg (off : Int) = { s with pos := off } := by
  have hb : s.eofbit = false ∧ s.failbit = false := by
    simpa [IFStream.good] using hg
  unfold IFStream.seekg
  have hneg : ¬ ((off : Int) < 0) := by omega
  simp only [hb.2, hneg, if_false, Int.toNat_ofNat, Bool.false_eq_true]
  rw [← hb.1]

/-- Seek and read of a payload that lies inside the file, from a good stream. -/
theorem seek_read_of_good (s : IFStream) (off n : Nat) (hg : s.good = true)
    (hin : off + n ≤ s.content.length) :
    (s.seekg (off : Int)).read (zeros n) n =
      ({ s with pos := off + n, eofbit := false, failbit := false, gcount := n },
       slice s.content off n) := by
  have hb : s.eofbit = false ∧ s.failbit = false := by
    simpa [IFStream.good] using hg
  rw [seekg_of_good s off hg]
  rw [read_of_good _ n n (by simpa [IFStream.good] using hb) hin]
  simp [slice, zeros]

/-- C3. From a reader in a good state and a sink that opens the entry's file: an entry of
type 0 and size `n > 0` whose payload lies inside the archive has the bytes
`archive[offset, offset + n)` written to its file; an entry of type zlib / LZ4 / zstd whose
compressed bytes lie inside the archive and are decoded by the matching library into a
text `p` of exactly `size` bytes has `p` written to its file; in each case the entry is
counted as extracted. -/
theorem extraction_round_trip (c : Codecs) (k : Sink) (st : RunState) (e : FileEntry)
    (hgood : st.input.good = true)
    (hdir : k.createDirectories e.name = true) (hopen : k.openOutput e.name = true) :
    (e.compressionType = 0 → 0 < e.size → e.offset + e.size ≤ st.input.content.length →
      writtenAndCounted st (processEntry c k st e) e.name
        (slice st.input.content e.offset e.size)) ∧
    (∀ p, e.compressionType = 0x21000000 →
      e.offset + e.compressedSize ≤ st.input.content.length →
      c.zlib (slice st.input.content e.offset e.compressedSize) e.compressedSize e.size
        = some p →
      p.length = e.size → writtenAndCounted st (processEntry c k st e) e.name p) ∧
    (∀ p, e.compressionType = 0x42000000 →
      e.offset + e.compressedSize ≤ st.input.content.length →
      c.lz4 (slice st.input.content e.offset e.compressedSize) e.compressedSize e.size
        = some p →
      p.length = e.size → writtenAndCounted st (processEntry c k st e) e.name p) ∧
    (∀ p, e.compressionType = 0x23000000 →
      e.offset + e.compressedSize ≤ st.input.content.length →
      c.zstd (slice st.input.content e.offset e.compressedSize) e.compressedSize e.size
        = some p →
      p.length = e.size → writtenAndCounted st (processEntry c k st e) e.name p) := by
  refine ⟨?_, ?_, ?_, ?_⟩
  · intro htag hpos hin
    have hsl : (slice st.input.content e.offset e.size).length = e.size := by
      simp only [slice, List.length_take, List.length_drop]; omega
    have hne : ¬ e.size = 0 := by omega
    simp only [processEntry, htag, if_true, extractLZ4, hdir, hopen, Bool.not_true,
      Bool.false_eq_true, if_false, hpos, seek_read_of_good st.input e.offset e.size hgood hin,
      ne_eq, not_true_eq_false, gt_iff_lt]
    refine ⟨?_, ?_, rfl⟩
    · rw [List.take_of_length_le (by omega)]
    · rw [List.take_of_length_le (by omega)]; exact lookup_put _ _ _
  · intro p htag hin hdec hlen
    simp only [processEntry, htag, extractZLIB, hdir, hopen, Bool.not_true,
      Bool.false_eq_true, if_false, zlibUncmp,
      seek_read_of_good st.input e.offset e.compressedSize hgood hin, hdec,
      ne_eq, not_true_eq_false, fillBuffer_full p e.size hlen]
    norm_num
    refine ⟨?_, ?_, rfl⟩
    · rw [List.take_of_length_le (by omega)]
    · rw [List.take_of_length_le (by omega)]; exact lookup_put _ _ _
  · intro p htag hin hdec hlen
    have hbl : (slice st.input.content e.offset e.compressedSize).length = e.compressedSize := by
      simp only [slice, List.length_take, List.length_drop]; omega
    simp only [processEntry, htag, extractLZ4, hdir, hopen, Bool.not_true,
      Bool.false_eq_true, if_false,
      seek_read_of_good st.input e.offset e.compressedSize hgood hin, hdec, hbl, hlen,
      ne_eq, not_true_eq_false, fillBuffer_full p e.size hlen]
    norm_num
    refine ⟨?_, ?_, rfl⟩
    · rw [List.take_of_length_le (by omega)]
    · rw [List.take_of_length_le (by omega)]; exact lookup_put _ _ _
  · intro p htag hin hdec hlen
    simp only [processEntry, htag, extractZSTD, hdir, hopen, Bool.not_true,
      Bool.false_eq_true, if_false, zstdUncmp,
      seek_read_of_good st.input e.offset e.compressedSize hgood hin, hdec,
      ne_eq, not_true_eq_false, fillBuffer_full p e.size hlen]
    norm_num
    refine ⟨?_, ?_, rfl⟩
    · rw [List.take_of_length_le (by omega)]
    · rw [List.take_of_length_le (by omega)]; exact lookup_put _ _ _


/-- A run of C3 on one entry of each recognized type over `samplePayload`. -/
theorem extraction_round_trip_witness :
    writtenAndCounted (startState samplePayload)
      (processEntry sampleCodecs sampleSink (startState samplePayload) rawEntry)
      [0x72] [1, 2, 3, 4, 5] ∧
    writtenAndCounted (startState samplePayload)
      (processEntry sampleCodecs sampleSink (startState samplePayload) zlibEntry)
      [0x7A] [0x41] ∧
    writtenAndCounted (startState samplePayload)
      (processEntry sampleCodecs sampleSink (startState samplePayload) lz4Entry)
      [0x6C] [0x41] ∧
    writtenAndCounted (startState samplePayload)
      (processEntry sampleCodecs sampleSink (startState samplePayload) zstdEntry)
      [0x73] [0x41] :=
  ⟨(extraction_round_trip sampleCodecs sampleSink (startState samplePayload) rawEntry
      rfl rfl rfl).1 rfl (by decide) (by decide),
   (extraction_round_trip sampleCodecs sampleSink (startState samplePayload) zlibEntry
      rfl rfl rfl).2.1 [0x41] rfl (by decide) (by decide) rfl,
   (extraction_round_trip sampleCodecs sampleSink (startState samplePayload) lz4Entry
      rfl rfl rfl).2.2.1 [0x41] rfl (by decide) (by decide) rfl,
   (extraction_round_trip sampleCodecs sampleSink (startState samplePayload) zstdEntry
      rfl rfl rfl).2.2.2 [0x41] rfl (by decide) (by decide) rfl⟩

/-! ## C4: selection of the codec -/

theorem processEntries_append (c : Codecs) (k : Sink) (st : RunState)
    (xs ys : List FileEntry) :
    processEntries c k st (xs ++ ys) = processEntries c k (processEntries c k st xs) ys := by
  induction xs generalizing st with
  | nil => rfl
  | cons x xs ih => exact ih (processEntry c k st x)

/-- C4. The dispatch of `processFile`: type `0` goes to `extractLZ4`, where it is a raw copy
(no library has a say in the result), type `0x21000000` to `extractZLIB` with zlib, type
`0x42000000` to `extractLZ4` with LZ4, type `0x23000000` to `extractZSTD` with zstd.  For
every other type the entry is skipped: stream, output tree and counter stay as they are,
and the run over a table gives the same result as the run over the table without that
entry. -/
theorem codec_selection (c : Codecs) (k : Sink) (st : RunState) (e : FileEntry) :
    (e.compressionType = 0x00000000 →
      processEntry c k st e = extractLZ4 c.lz4 k st e ∧
      ∀ c1 : Codecs, processEntry c1 k st e = processEntry c k st e) ∧
    (e.compressionType = 0x21000000 → processEntry c k st e = extractZLIB c.zlib k st e) ∧
    (e.compressionType = 0x42000000 → processEntry c k st e = extractLZ4 c.lz4 k st e) ∧
    (e.compressionType = 0x23000000 → processEntry c k st e = extractZSTD c.zstd k st e) ∧
    (e.compressionType ≠ 0x00000000 → e.compressionType ≠ 0x21000000 →
      e.compressionType ≠ 0x42000000 → e.compressionType ≠ 0x23000000 →
      processEntry c k st e = st ∧
      ∀ (st0 : RunState) (before after : List FileEntry),
        processEntries c k st0 (before ++ e :: after) =
          processEntries c k st0 (before ++ after)) := by
  refine ⟨?_, ?_, ?_, ?_, ?_⟩
  · intro h
    refine ⟨by simp [processEntry, h], ?_⟩
    intro c1
    simp [processEntry, h, extractLZ4]
  · intro h; simp [processEntry, h]
  · intro h; simp [processEntry, h]
  · intro h; simp [processEntry, h]
  · intro h0 h1 h2 h3
    have hskip : ∀ s : RunState, processEntry c k s e = s := by
      intro s; simp [processEntry, h0, h1, h2, h3]
    refine ⟨hskip st, ?_⟩
    intro st0 before after
    rw [processEntries_append, processEntries_append]
    show processEntries c k (processEntry c k (processEntries c k st0 before) e) after = _
    rw [hskip]

/-- A run of C4: `unknownEntry` between two entries changes nothing, and each sample entry
goes to its routine. -/
theorem codec_selection_witness :
    processEntry sampleCodecs sampleSink (startState samplePayload) unknownEntry =
      startState samplePayload ∧
    processEntries sampleCodecs sampleSink (startState samplePayload)
        ([rawEntry] ++ unknownEntry :: [zlibEntry]) =
      processEntries sampleCodecs sampleSink (startState samplePayload)
        ([rawEntry] ++ [zlibEntry]) ∧
    processEntry sampleCodecs sampleSink (startState samplePayload) zlibEntry =
      extractZLIB sampleZlib sampleSink (startState samplePayload) zlibEntry :=
  ⟨((codec_selection sampleCodecs sampleSink (startState samplePayload) unknownEntry).2.2.2.2
      (by decide) (by decide) (by decide) (by decide)).1,
   ((codec_selection sampleCodecs sampleSink (startState samplePayload) unknownEntry).2.2.2.2
      (by decide) (by decide) (by decide) (by decide)).2 _ _ _,
   (codec_selection sampleCodecs sampleSink (startState samplePayload) zlibEntry).2.1 rfl⟩


/-! ## C5: a table that decompresses to fewer bytes than announced -/

/-- C5, evaluated. The table header of `shortTableArchive` announces 2 entries (544 bytes);
its LZ4 block decodes, without error, to 272 bytes.  `lz4Uncmp` tests the sign of the
result only, so the run is not aborted: two records are decoded and listed (the second from
the zero bytes the buffer was created with) and the file `a` is written. -/
theorem short_table_accepted :
    (sampleLZ4 (storedBlock (mkRecord [0x61] 299 0 5 0)) 275 (2 * TABLE_ENTRY_SIZE)).map
        List.length = some 272 ∧
    (processFile (sampleWorld shortTableArchive)).fatal = none ∧
    (processFile (sampleWorld shortTableArchive)).listing =
      [{ name := [0x61], offset := 299, compressionType := 0, compressedSize := 5, size := 5 },
       { name := [], offset := 0, compressionType := 0, compressedSize := 0, size := 0 }] ∧
    (processFile (sampleWorld shortTableArchive)).files = [([0x61], [1, 2, 3, 4, 5])] ∧
    (processFile (sampleWorld shortTableArchive)).filesExtracted = 1 := by
  refine ⟨?_, ?_, ?_, ?_, ?_⟩ <;> set_option maxRecDepth 100000 in decide

/-! ## C6: a library result shorter than the declared size -/

/-- C6, evaluated. The zlib and zstd streams of the one-byte text `A`, under a declared size
of 4: the helpers `zlibUncmp`, `zstdUncmp` and `lz4Uncmp` return the four-byte buffer, and
`extractZLIB` / `extractZSTD` write `A` followed by three zero bytes and count the entry.
The LZ4 branch of `extractLZ4`, which compares the two lengths, writes nothing and does not
count the entry. -/
theorem size_mismatch_accepted :
    sampleZlib zlibStreamA 9 4 = some [0x41] ∧
    zlibUncmp sampleZlib zlibStreamA 9 4 = some [0x41, 0, 0, 0] ∧
    zstdUncmp sampleZstd zstdFrameA 10 4 = some [0x41, 0, 0, 0] ∧
    lz4Uncmp sampleLZ4 [0x10, 0x41] 2 4 = some [0x41, 0, 0, 0] ∧
    (processFile (sampleWorld longZlibArchive)).files = [([0x7A], [0x41, 0, 0, 0])] ∧
    (processFile (sampleWorld longZlibArchive)).filesExtracted = 1 ∧
    (processEntry sampleCodecs sampleSink (startState samplePayload) zstdEntryLong).files =
      [([0x73], [0x41, 0, 0, 0])] ∧
    (processEntry sampleCodecs sampleSink (startState samplePayload)
      zstdEntryLong).filesExtracted = 1 ∧
    (processEntry sampleCodecs sampleSink (startState samplePayload) lz4EntryLong).files =
      [([0x6C], [])] ∧
    (processEntry sampleCodecs sampleSink (startState samplePayload)
      lz4EntryLong).filesExtracted = 0 := by
  refine ⟨?_, ?_, ?_, ?_, ?_, ?_, ?_, ?_, ?_, ?_⟩ <;> set_option maxRecDepth 100000 in decide

/-! ## C7: a payload cut short by the end of the file -/

/-- C7, evaluated. `truncatedLZ4Archive` is 300 bytes long and its LZ4 entry declares two
compressed bytes at offset 299.  The read delivers one byte; the test in the LZ4 branch
compares the length of the buffer with `compressedSize`, which never differ, so the buffer
`10 00` goes to the library, which decodes it to one zero byte: that byte is written and the
entry counted.  The same cut through `extractZLIB`, which compares `gcount()`, writes
nothing and does not count the entry. -/
theorem truncated_lz4_payload_extracted :
    truncatedLZ4Archive.length = 300 ∧
    (processFile (sampleWorld truncatedLZ4Archive)).listing =
      [{ name := [0x6C], offset := 299, compressionType := 0x42000000, compressedSize := 2,
         size := 1 }] ∧
    (processFile (sampleWorld truncatedLZ4Archive)).files = [([0x6C], [0])] ∧
    (processFile (sampleWorld truncatedLZ4Archive)).filesExtracted = 1 ∧
    (processFile (sampleWorld truncatedZlibArchive)).files = [([0x7A], [])] ∧
    (processFile (sampleWorld truncatedZlibArchive)).filesExtracted = 0 := by
  refine ⟨?_, ?_, ?_, ?_, ?_, ?_⟩ <;> set_option maxRecDepth 100000 in decide

/-! ## C8: entries after a failed read -/

/-- C8, evaluated. In `twoEntryArchive` the entry `b` declares nine bytes where the file
has five, and the entry `r` after it declares those five bytes.  The short read for `b`
leaves `failbit` set; the `seekg` and `read` for `r` then do nothing, so `r` is not
extracted, while the archive with `r` alone extracts it.  The same on the entry loop over
one and the same file content. -/
theorem failed_read_blocks_later_entries :
    (processFile (sampleWorld twoEntryArchive)).fatal = none ∧
    (processFile (sampleWorld twoEntryArchive)).listing =
      [{ name := [0x62], offset := 572, compressionType := 0, compressedSize := 9, size := 9 },
       { name := [0x72], offset := 572, compressionType := 0, compressedSize := 5,
         size := 5 }] ∧
    (processFile (sampleWorld twoEntryArchive)).files = [([0x72], []), ([0x62], [])] ∧
    (processFile (sampleWorld twoEntryArchive)).filesExtracted = 0 ∧
    (processFile (sampleWorld oneEntryArchive)).files = [([0x72], [1, 2, 3, 4, 5])] ∧
    (processFile (sampleWorld oneEntryArchive)).filesExtracted = 1 ∧
    (processEntries sampleCodecs sampleSink (startState samplePayload)
      [overlongEntry, rawEntry]).files.lookup [0x72] = some [] ∧
    (processEntries sampleCodecs sampleSink (startState samplePayload)
      [rawEntry]).files.lookup [0x72] = some [1, 2, 3, 4, 5] ∧
    (processEntries sampleCodecs sampleSink (startState samplePayload)
      [overlongEntry]).input.failbit = true := by
  refine ⟨?_, ?_, ?_, ?_, ?_, ?_, ?_, ?_, ?_⟩ <;> set_option maxRecDepth 100000 in decide

/-! ## C9: entries of type 0 and size 0 -/

/-- C9 (amended). For an entry of type 0 and size 0 the routine reads no byte (the stream
is the one `seekg` leaves) and raises no error.  When the sink opens the entry's file, an
empty file is created at the entry's path (an existing one is truncated) and the entry is
counted as extracted; when it does not, tree and counter are unchanged.  In both cases
every other file is as before, and the run goes on with the next entry. -/
theorem empty_entry (c : Codecs) (k : Sink) (st : RunState) (e : FileEntry)
    (htag : e.compressionType = 0) (hsize : e.size = 0) :
    (processEntry c k st e).input = st.input.seekg e.offset ∧
    (k.createDirectories e.name = true → k.openOutput e.name = true →
      (processEntry c k st e).files = st.files.put e.name [] ∧
      (processEntry c k st e).files.lookup e.name = some [] ∧
      (processEntry c k st e).filesExtracted = st.filesExtracted + 1) ∧
    (k.createDirectories e.name = false ∨ k.openOutput e.name = false →
      (processEntry c k st e).files = st.files ∧
      (processEntry c k st e).filesExtracted = st.filesExtracted) ∧
    (∀ other, other ≠ e.name →
      (processEntry c k st e).files.lookup other = st.files.lookup other) ∧
    (∀ rest, processEntries c k st (e :: rest) =
      processEntries c k (processEntry c k st e) rest) := by
  have hp : processEntry c k st e = extractLZ4 c.lz4 k st e := by simp [processEntry, htag]
  rw [hp]
  refine ⟨?_, ?_, ?_, ?_, ?_⟩
  · unfold extractLZ4
    simp only [htag, hsize, gt_iff_lt, lt_self_iff_false, if_true, if_false]
    split
    · rfl
    · split <;> rfl
  · intro hd ho
    simp only [extractLZ4, hd, ho, htag, hsize, Bool.not_true, Bool.false_eq_true, if_false,
      if_true, gt_iff_lt, lt_self_iff_false, lookup_put, and_self]
  · intro hno
    unfold extractLZ4
    rcases hno with hd | ho
    · simp [hd]
    · by_cases hd : k.createDirectories e.name = true
      · simp [hd, ho]
      · simp [hd]
  · intro other hne
    unfold extractLZ4
    simp only [htag, hsize, gt_iff_lt, lt_self_iff_false, if_true, if_false]
    split
    · rfl
    · split
      · rfl
      · exact lookup_put_of_ne _ _ _ _ hne
  · intro rest
    rw [← hp]
    rfl

/-- A run of C9 on `emptyEntry`. -/
theorem empty_entry_witness :
    (processEntry sampleCodecs sampleSink (startState samplePayload) emptyEntry).files =
      (startState samplePayload).files.put [0x65] [] ∧
    (processEntry sampleCodecs sampleSink (startState samplePayload) emptyEntry).files.lookup
      [0x65] = some [] ∧
    (processEntry sampleCodecs sampleSink (startState samplePayload)
      emptyEntry).filesExtracted = 0 + 1 :=
  (empty_entry sampleCodecs sampleSink (startState samplePayload) emptyEntry rfl rfl).2.1
    rfl rfl

/-- C9 as stated fails: before `emptyEntry` is processed there is no file at its path,
afterwards there is one (of length 0), and the entry is counted as extracted. -/
theorem empty_entry_creates_file :
    (startState samplePayload).files.lookup emptyEntry.name = none ∧
    (processEntry sampleCodecs sampleSink (startState samplePayload) emptyEntry).files.lookup
      emptyEntry.name = some [] ∧
    (processEntry sampleCodecs sampleSink (startState samplePayload) emptyEntry).files ≠
      (startState samplePayload).files ∧
    (processEntry sampleCodecs sampleSink (startState samplePayload)
      emptyEntry).filesExtracted = 1 := by
  refine ⟨?_, ?_, ?_, ?_⟩ <;> decide

/-! ## C10: the exit status -/

theorem fillBuffer_length (out : List Byte) (cap : Nat) : (fillBuffer out cap).length = cap := by
  simp only [fillBuffer, List.length_take, List.length_append, zeros_length]
  omega

theorem lz4Uncmp_length (lz4 : Codec) (input : List Byte) (n m : Nat) (t : List Byte)
    (h : lz4Uncmp lz4 input n m = some t) : t.length = m := by
  unfold lz4Uncmp at h
  split at h
  · cases h
  · cases h
    exact fillBuffer_length _ _

/-- The loop of `processFile` stays inside the table buffer when `numFiles * 272` fits 32
bits, and leaves it only on a run without fatal error whose `numFiles * 272` does not. -/
theorem processFile_bounds (w : World) :
    ((processFile w).numFiles * 272 < 2 ^ 32 → (processFile w).outOfBounds = false) ∧
    ((processFile w).outOfBounds = true →
      (processFile w).fatal = none ∧ 2 ^ 32 ≤ (processFile w).numFiles * 272) := by
  unfold processFile
  split
  · simp [World.aborted]
  · simp only []
    split
    · simp [World.aborted]
    · split
      · simp [World.aborted]
      · split
        · simp [World.aborted]
        · rename_i tableData htab
          have hlen := lz4Uncmp_length _ _ _ _ _ htab
          split
          · simp [World.aborted]
          · split
            · simp [World.aborted]
            · simp only [hlen, TABLE_ENTRY_SIZE, decide_eq_false_iff_not, decide_eq_true_eq,
                true_and]
              constructor
              · intro h1; omega
              · intro h1; omega

/-- C10 (amended). Where the behaviour of the source is defined (the argument vector holds
the program name, and no table record is read outside the table buffer, which is so
whenever `numFiles * 272` fits 32 bits), `main` returns a non-zero status exactly when
there is no argument or the extension of the input file name is neither `.pak` nor `.lsv`.
Whenever `processFile` is called and the run is defined the status is 0, whatever the
outcome of the run, fatal errors included: `processFile` catches its own errors.  There is
no status exactly when the argument vector is empty or the run reads outside the table
buffer, which needs a table that decompressed without error and `numFiles * 272` of at
least `2 ^ 32`. -/
theorem exit_status (h : Host) (argv : List (List Char)) :
    ((main h argv).exitCode = none ↔
      (argv.length = 0 ∨ ∃ o, (main h argv).run = some o ∧ o.outOfBounds = true)) ∧
    ((main h argv).exitCode ≠ none →
      ((main h argv).exitCode ≠ some 0 ↔
        (argv.length < 2 ∨
          (h.extension (joinArguments argv.tail) ≠ ['.', 'p', 'a', 'k'] ∧
           h.extension (joinArguments argv.tail) ≠ ['.', 'l', 's', 'v'])))) ∧
    (∀ o, (main h argv).run = some o →
      o = processFile (h.world (joinArguments argv.tail)) ∧
      (o.numFiles * 272 < 2 ^ 32 → (main h argv).exitCode = some 0) ∧
      (o.fatal ≠ none → (main h argv).exitCode = some 0) ∧
      (o.outOfBounds = false → (main h argv).exitCode = some 0) ∧
      (o.outOfBounds = true → o.fatal = none ∧ 2 ^ 32 ≤ o.numFiles * 272)) := by
  by_cases hargc : argv.length < 2
  · by_cases h0 : argv.length = 0
    · have hm : main h argv = ⟨none, none⟩ := by
        unfold main; rw [if_pos hargc, if_pos h0]
      rw [hm]
      refine ⟨⟨fun _ => Or.inl h0, fun _ => rfl⟩, fun hne => absurd rfl hne, ?_⟩
      intro o ho
      cases ho
    · have hm : main h argv = ⟨some EXIT_FAILURE, none⟩ := by
        unfold main; rw [if_pos hargc, if_neg h0]
      rw [hm]
      refine ⟨⟨fun hn => (by cases hn), fun hor => ?_⟩,
        fun _ => ⟨fun _ => Or.inl hargc, fun _ => by decide⟩, ?_⟩
      · rcases hor with h1 | ⟨o, ho, _⟩
        · exact absurd h1 h0
        · cases ho
      · intro o ho
        cases ho
  · have h0 : ¬ argv.length = 0 := by omega
    by_cases hext : h.extension (joinArguments argv.tail) ≠ ['.', 'p', 'a', 'k'] ∧
        h.extension (joinArguments argv.tail) ≠ ['.', 'l', 's', 'v']
    · have hm : main h argv = ⟨some EXIT_FAILURE, none⟩ := by
        unfold main; rw [if_neg hargc]; exact if_pos hext
      rw [hm]
      refine ⟨⟨fun hn => (by cases hn), fun hor => ?_⟩,
        fun _ => ⟨fun _ => Or.inr hext, fun _ => by decide⟩, ?_⟩
      · rcases hor with h1 | ⟨o, ho, _⟩
        · exact absurd h1 h0
        · cases ho
      · intro o ho
        cases ho
    · have hb := processFile_bounds (h.world (joinArguments argv.tail))
      by_cases hout : (processFile (h.world (joinArguments argv.tail))).outOfBounds = true
      · have hm : main h argv =
            ⟨none, some (processFile (h.world (joinArguments argv.tail)))⟩ := by
          unfold main; rw [if_neg hargc]
          simp only [hext, if_false, hout, if_true]
        rw [hm]
        refine ⟨⟨fun _ => Or.inr ⟨_, rfl, hout⟩, fun _ => rfl⟩, fun hne => absurd rfl hne, ?_⟩
        intro o ho
        have ho := (Option.some.inj ho).symm
        subst ho
        have hf := hb.2 hout
        refine ⟨rfl, ?_, ?_, ?_, fun _ => hf⟩
        · intro hlt; omega
        · intro hne; exact absurd hf.1 hne
        · intro hfalse; rw [hout] at hfalse; cases hfalse
      · have hin : (processFile (h.world (joinArguments argv.tail))).outOfBounds = false := by
          simpa using hout
        have hm : main h argv =
            ⟨some EXIT_SUCCESS, some (processFile (h.world (joinArguments argv.tail)))⟩ := by
          unfold main; rw [if_neg hargc]
          simp only [hext, if_false, hin, Bool.false_eq_true]
        rw [hm]
        refine ⟨⟨fun hn => (by cases hn), fun hor => ?_⟩,
          fun _ => ⟨fun hne => absurd rfl hne, fun hor => ?_⟩, ?_⟩
        · rcases hor with h1 | ⟨o, ho, hoo⟩
          · exact absurd h1 h0
          · have ho := (Option.some.inj ho).symm
            subst ho
            rw [hin] at hoo; cases hoo
        · rcases hor with h1 | h2
          · exact absurd h1 hargc
          · exact absurd h2 hext
        · intro o ho
          have ho := (Option.some.inj ho).symm
          subst ho
          refine ⟨rfl, fun _ => rfl, fun _ => rfl, fun _ => rfl, fun ht => ?_⟩
          rw [hin] at ht; cases ht

/-- A run of C10 (amended) on `prog x.pak`: with an archive whose magic is `XXXX` the run is
defined, ends in a fatal error, and the status is 0; with `hugeCountArchive` the loop has to
read outside the 16-byte table buffer and there is no status. -/
theorem exit_status_witness :
    (main (sampleHost (some (0x58 :: 0x58 :: 0x58 :: 0x58 :: le32 18))) sampleArgv).run =
      some (processFile (sampleWorld (0x58 :: 0x58 :: 0x58 :: 0x58 :: le32 18))) ∧
    (processFile (sampleWorld (0x58 :: 0x58 :: 0x58 :: 0x58 :: le32 18))).fatal ≠ none ∧
    (main (sampleHost (some (0x58 :: 0x58 :: 0x58 :: 0x58 :: le32 18))) sampleArgv).exitCode =
      some 0 ∧
    hugeCountArchive.length = 26 ∧
    (processFile (sampleWorld hugeCountArchive)).numFiles * 272 = 2 ^ 32 + 16 ∧
    (main (sampleHost (some hugeCountArchive)) sampleArgv).exitCode = none :=
  ⟨by set_option maxRecDepth 100000 in decide,
   by set_option maxRecDepth 100000 in decide,
   ((exit_status (sampleHost (some (0x58 :: 0x58 :: 0x58 :: 0x58 :: le32 18))) sampleArgv).2.2
      (processFile (sampleWorld (0x58 :: 0x58 :: 0x58 :: 0x58 :: le32 18)))
      (by set_option maxRecDepth 100000 in decide)).2.2.1
      (by set_option maxRecDepth 100000 in decide),
   by set_option maxRecDepth 100000 in decide,
   by set_option maxRecDepth 100000 in decide,
   (exit_status (sampleHost (some hugeCountArchive)) sampleArgv).1.2
      (Or.inr ⟨processFile (sampleWorld hugeCountArchive),
        by set_option maxRecDepth 100000 in decide,
        by set_option maxRecDepth 100000 in decide⟩)⟩

/-- C10 as stated fails: with a valid extension the status is 0 although the input file
cannot be opened, although the magic is `XXXX`, and although the version is 17. -/
theorem exit_status_ignores_fatal :
    (main (sampleHost none) sampleArgv).exitCode = some 0 ∧
    (main (sampleHost none) sampleArgv).run.map (fun o => o.fatal) =
      some (some Fatal.cannotOpenInput) ∧
    (main (sampleHost (some (0x58 :: 0x58 :: 0x58 :: 0x58 :: le32 18))) sampleArgv).exitCode
      = some 0 ∧
    (main (sampleHost (some (0x58 :: 0x58 :: 0x58 :: 0x58 :: le32 18))) sampleArgv).run.map
      (fun o => o.fatal) = some (some Fatal.invalidMagic) ∧
    (main (sampleHost (some (MAGIC_STRING ++ le32 17 ++ zeros 16))) sampleArgv).exitCode
      = some 0 ∧
    (main (sampleHost (some (MAGIC_STRING ++ le32 17 ++ zeros 16))) sampleArgv).run.map
      (fun o => o.fatal) = some (some Fatal.badVersion) := by
  refine ⟨?_, ?_, ?_, ?_, ?_, ?_⟩ <;> set_option maxRecDepth 100000 in decide

end BG3Unpack
